import Mathlib

/-!
Shallow embedding of the core logic of the timetrack repository:
the timezone conversion helper (library/time_helpers/localization.py),
the timer state machine on Project (project/models.py), and the
aggregation routines EntriesOverTime.entry_time_by_day and
EntriesOverTime.entry_time_by_month
(library/project_operations/data_processing.py).

Modelling conventions:
* instants are integers, in seconds; calendar dates are integers, in days
  since 1970-01-01 (both may be negative);
* a Python datetime is a wall-clock value in seconds together with the
  optional fixed UTC offset attached by its tzinfo (none = naive);
  Django stores entry timestamps as timezone-aware UTC datetimes
  (offset 0), and a date appearing in a queryset comparison is coerced
  to midnight UTC of that day;
* real-number arithmetic of the source (float seconds, round(x, 1)) is
  modelled exactly: durations are whole seconds, and a one-decimal hours
  value is stored losslessly as an integer count of tenths of an hour,
  rounded half-to-even as Python rounds;
* code that can raise (pytz unknown-zone lookup, subtracting a null
  end_time, stop_timer dereferencing a missing active entry) is embedded
  in Except.
-/

namespace TimeTrack

/-- A timezone: its UTC offset in seconds, as a function of the UTC
instant (so daylight-saving rules are representable). -/
structure Tz where
  offset : Int → Int

/-- The zone database behind pytz.timezone: maps a zone-name string to a
zone, or none when the name is not a recognized identifier. -/
def Tzdb : Type := String → Option Tz

/-- A Python datetime: naive wall-clock value in seconds plus the fixed
UTC offset attached by its tzinfo (none for a naive datetime). -/
structure PyDateTime where
  wall : Int
  tzoffset : Option Int
deriving DecidableEq

/-- The absolute instant a datetime denotes (a naive datetime is read at
offset 0, i.e. as UTC, which is how the code treats it). -/
def PyDateTime.instant (d : PyDateTime) : Int :=
  d.wall - d.tzoffset.getD 0

/-- Python datetime.date() of a datetime: the calendar day of its
wall-clock value, as days since the epoch. -/
def PyDateTime.date (d : PyDateTime) : Int :=
  Int.fdiv d.wall 86400

/-- Python datetime.astimezone(tz): the same instant re-expressed with
the wall clock and fixed offset of the target zone. -/
def astimezone (d : PyDateTime) (tz : Tz) : PyDateTime :=
  let i := d.instant
  { wall := i + tz.offset i, tzoffset := some (tz.offset i) }

/-- Django timezone.now() at absolute instant now: an aware UTC
datetime. -/
def utcNow (now : Int) : PyDateTime :=
  { wall := now, tzoffset := some 0 }

/-- The user model (authentication/models.py): timezone is a plain
CharField (default UTC), so the empty string is the only falsy value;
a TTUser instance always has the attribute. -/
structure TTUser where
  username : String
  timezone : String
  dark_mode : Bool
deriving DecidableEq

/-- Error raised by pytz.timezone on an unrecognized zone name. -/
inductive TzError where
  | unknownTimeZone
deriving DecidableEq

/-- Embedding of convert_to_user_time (library/time_helpers/localization.py):
returns the datetime unchanged when the user's timezone field is falsy,
errors when the zone string is not in the database, otherwise localizes
a naive input as UTC and converts with astimezone. -/
def convert_to_user_time (tzdb : Tzdb) (dt : PyDateTime) (user : TTUser) :
    Except TzError PyDateTime :=
  if user.timezone = "" then .ok dt
  else
    match tzdb user.timezone with
    | none => .error .unknownTimeZone
    | some user_tz =>
      let dt2 := if dt.tzoffset.isNone then { dt with tzoffset := some 0 } else dt
      .ok (astimezone dt2 user_tz)

/-- The project model (project/models.py): id, name and owner; timestamps
managed by the framework are irrelevant to the core logic. -/
structure Project where
  id : Int
  name : String
  owner : TTUser
deriving DecidableEq

/-- A time entry row (project/models.py): owning project, logging user,
required start_time and nullable end_time (null while running). -/
structure TimeEntry where
  project : Project
  user : TTUser
  start_time : PyDateTime
  end_time : Option PyDateTime
deriving DecidableEq

/-- Embedding of the Project.is_active property: whether some entry of the
project has a null end_time.  A project is represented by the list of its
time entries, in database (insertion) order. -/
def is_active (entries : List TimeEntry) : Bool :=
  entries.any (fun e => e.end_time.isNone)

/-- Number of active (null end_time) entries of a project. -/
def countActive (entries : List TimeEntry) : Nat :=
  (entries.filter (fun e => e.end_time.isNone)).length

/-- Embedding of Project.start_timer: when no entry is active, append a
fresh entry with start_time now, null end_time and user = owner;
otherwise do nothing. -/
def start_timer (p : Project) (entries : List TimeEntry) (now : Int) :
    List TimeEntry :=
  if is_active entries then entries
  else entries ++ [{ project := p, user := p.owner,
                     start_time := utcNow now, end_time := none }]

/-- Error of Project.stop_timer when the queryset .first() returns None
and the code dereferences it. -/
inductive TimerError where
  | noneDereference
deriving DecidableEq

/-- Embedding of Project.stop_timer: set end_time := now on the first
entry with a null end_time; when no such entry exists the source sets an
attribute on None, modelled as an error. -/
def stop_timer : List TimeEntry → Int → Except TimerError (List TimeEntry)
  | [], _ => .error .noneDereference
  | e :: rest, now =>
    if e.end_time.isNone then
      .ok ({ e with end_time := some (utcNow now) } :: rest)
    else
      (stop_timer rest now).map (fun tail => e :: tail)

/-! Aggregation: EntriesOverTime.entry_time_by_day
(library/project_operations/data_processing.py). -/

/-- UTC midnight of a calendar day, as an instant: how a date argument is
coerced when compared against a DateTimeField in a queryset. -/
def dayStart (d : Int) : Int := d * 86400

/-- Ordering of entries by start_time, the order_by key of the fetch. -/
def startLe (a b : TimeEntry) : Prop :=
  a.start_time.instant ≤ b.start_time.instant

instance : DecidableRel startLe :=
  fun a b => inferInstanceAs (Decidable (a.start_time.instant ≤ b.start_time.instant))

instance : IsTotal TimeEntry startLe :=
  ⟨fun a b => Int.le_total a.start_time.instant b.start_time.instant⟩

instance : IsTrans TimeEntry startLe :=
  ⟨fun _ _ _ hab hbc => le_trans hab hbc⟩

/-- SQL comparison end_time <= bound on a nullable column: a NULL
end_time never satisfies it, so running entries are filtered out. -/
def endLeBound (en : TimeEntry) (bound : Int) : Bool :=
  match en.end_time with
  | none => false
  | some et => decide (et.instant ≤ bound)

/-- Whether an entry belongs to one of the input projects
(project__in=projects, matched by primary key). -/
def memberProjects (projects : List Project) (en : TimeEntry) : Bool :=
  projects.any (fun p => decide (p.id = en.project.id))

/-- The row filter of the fetch in entry_time_by_day:
project__in=projects, start_time__gte=start_day - 2 days,
end_time__lte=end_day + 2 days. -/
def keepEntry (projects : List Project) (start_day end_day : Int)
    (en : TimeEntry) : Bool :=
  memberProjects projects en
    && decide (dayStart (start_day - 2) ≤ en.start_time.instant)
    && endLeBound en (dayStart (end_day + 2))

/-- The fetch of entry_time_by_day: filter the entry table and order by
start_time ascending.  The database is modelled as the list of all
TimeEntry rows. -/
def fetchEntriesByDay (db : List TimeEntry) (projects : List Project)
    (start_day end_day : Int) : List TimeEntry :=
  List.insertionSort startLe (db.filter (keepEntry projects start_day end_day))

/-- Errors an aggregation run can raise: a pytz lookup failure
propagating out of convert_to_user_time, or the TypeError from
subtracting a null end_time. -/
inductive AggError where
  | tz (e : TzError)
  | noneSubtraction
deriving DecidableEq

/-- The defaultdict(int) update day_by_project[name] += v: add in place
when the key exists, otherwise append in first-touch order. -/
def updateByProject (name : String) (v : Int) :
    List (String × Int) → List (String × Int)
  | [] => [(name, v)]
  | (n, s) :: rest =>
    if n = name then (n, s + v) :: rest
    else (n, s) :: updateByProject name v rest

/-- The inner per-day loop of entry_time_by_day, with the early break:
accumulate the duration of every entry whose user-local start date
equals the day, break as soon as an entry's user-local date is past the
day, and skip earlier entries. -/
def scanDay (tzdb : Tzdb) (day : Int) :
    List TimeEntry → Int → List (String × Int) →
    Except AggError (Int × List (String × Int))
  | [], seconds, byProject => .ok (seconds, byProject)
  | record :: rest, seconds, byProject =>
    match convert_to_user_time tzdb record.start_time record.project.owner with
    | .error e => .error (.tz e)
    | .ok user_date =>
      if user_date.date = day then
        match record.end_time with
        | none => .error .noneSubtraction
        | some et =>
          let delta := et.instant - record.start_time.instant
          scanDay tzdb day rest (seconds + delta)
            (updateByProject record.project.name delta byProject)
      else if day < user_date.date then .ok (seconds, byProject)
      else scanDay tzdb day rest seconds byProject

/-- Round-half-to-even of the exact quotient a / b, for b > 0: the
integer rounding Python's round applies.  The fractional part r / b is
compared with 1/2 through 2 * r versus b. -/
def roundHalfEvenDiv (a b : Int) : Int :=
  let f := Int.fdiv a b
  let r := a - b * f
  if 2 * r < b then f
  else if b < 2 * r then f + 1
  else if f % 2 = 0 then f else f + 1

/-- Python round(seconds / 3600, 1) represented exactly: the number of
tenths of an hour, i.e. ten times the one-decimal hours value. -/
def hoursTenths (seconds : Int) : Int :=
  roundHalfEvenDiv (seconds * 10) 3600

/-- One output record of entry_time_by_day: the day, its total hours
rounded to one decimal place (stored exactly, as tenths of an hour), and
the per-project-name subtotal mapping in insertion order (same unit). -/
structure DayRecord where
  day : Int
  hours_tenths : Int
  by_project : List (String × Int)
deriving DecidableEq

/-- The while loop building days_desired: every day from start_day to
end_day inclusive. -/
def daysDesired (start_day end_day : Int) : List Int :=
  (List.range (end_day + 1 - start_day).toNat).map (fun i => start_day + i)

/-- The outer loop of entry_time_by_day: one record per desired day,
built from the inner scan over the fetched entries. -/
def aggregateDays (tzdb : Tzdb) (entries : List TimeEntry) :
    List Int → Except AggError (List DayRecord)
  | [] => .ok []
  | day :: rest =>
    match scanDay tzdb day entries 0 [] with
    | .error e => .error e
    | .ok (seconds, byProject) =>
      match aggregateDays tzdb entries rest with
      | .error e => .error e
      | .ok tail =>
        .ok ({ day := day,
               hours_tenths := hoursTenths seconds,
               by_project := byProject.map
                 (fun pr => (pr.1, hoursTenths pr.2)) } :: tail)

/-- Embedding of EntriesOverTime.entry_time_by_day: fetch, then the
per-day aggregation. -/
def entry_time_by_day (tzdb : Tzdb) (db : List TimeEntry)
    (projects : List Project) (start_day end_day : Int) :
    Except AggError (List DayRecord) :=
  aggregateDays tzdb (fetchEntriesByDay db projects start_day end_day)
    (daysDesired start_day end_day)

/-! A claim-worded variant of the fetch (upper bound on start_time
rather than end_time), and a no-early-break variant of the scan, for
comparison against the source embedding. -/

/-- Fetch as the spec sentence words it: entries of an input project
whose start_time falls within the closed widened window, ordered by
start_time ascending. -/
def fetchEntriesByDayClaim (db : List TimeEntry) (projects : List Project)
    (start_day end_day : Int) : List TimeEntry :=
  List.insertionSort startLe (db.filter (fun en =>
    memberProjects projects en
      && decide (dayStart (start_day - 2) ≤ en.start_time.instant)
      && decide (en.start_time.instant ≤ dayStart (end_day + 2))))

/-- The by-day aggregation as the claim describes its fetch: identical
per-day processing, over the start_time-windowed entries. -/
def entry_time_by_day_claim (tzdb : Tzdb) (db : List TimeEntry)
    (projects : List Project) (start_day end_day : Int) :
    Except AggError (List DayRecord) :=
  aggregateDays tzdb (fetchEntriesByDayClaim db projects start_day end_day)
    (daysDesired start_day end_day)

/-- The inner per-day loop without the early break: scan every entry. -/
def scanDayFull (tzdb : Tzdb) (day : Int) :
    List TimeEntry → Int → List (String × Int) →
    Except AggError (Int × List (String × Int))
  | [], seconds, byProject => .ok (seconds, byProject)
  | record :: rest, seconds, byProject =>
    match convert_to_user_time tzdb record.start_time record.project.owner with
    | .error e => .error (.tz e)
    | .ok user_date =>
      if user_date.date = day then
        match record.end_time with
        | none => .error .noneSubtraction
        | some et =>
          let delta := et.instant - record.start_time.instant
          scanDayFull tzdb day rest (seconds + delta)
            (updateByProject record.project.name delta byProject)
      else scanDayFull tzdb day rest seconds byProject

/-- Outer loop over days using the no-break scan. -/
def aggregateDaysFull (tzdb : Tzdb) (entries : List TimeEntry) :
    List Int → Except AggError (List DayRecord)
  | [] => .ok []
  | day :: rest =>
    match scanDayFull tzdb day entries 0 [] with
    | .error e => .error e
    | .ok (seconds, byProject) =>
      match aggregateDaysFull tzdb entries rest with
      | .error e => .error e
      | .ok tail =>
        .ok ({ day := day,
               hours_tenths := hoursTenths seconds,
               by_project := byProject.map
                 (fun pr => (pr.1, hoursTenths pr.2)) } :: tail)

/-- Reimplementation of entry_time_by_day that scans every fetched entry
for every day, with no early break. -/
def entry_time_by_day_full (tzdb : Tzdb) (db : List TimeEntry)
    (projects : List Project) (start_day end_day : Int) :
    Except AggError (List DayRecord) :=
  aggregateDaysFull tzdb (fetchEntriesByDay db projects start_day end_day)
    (daysDesired start_day end_day)

/-! Aggregation: EntriesOverTime.entry_time_by_month. -/

/-- Proleptic Gregorian calendar from a count of days since 1970-01-01
(the standard civil-from-days algorithm): returns (year, month, day). -/
def civilFromDays (z0 : Int) : Int × Int × Int :=
  let z := z0 + 719468
  let era := Int.fdiv z 146097
  let doe := z - era * 146097
  let yoe := Int.fdiv
    (doe - Int.fdiv doe 1460 + Int.fdiv doe 36524 - Int.fdiv doe 146096) 365
  let y := yoe + era * 400
  let doy := doe - (365 * yoe + Int.fdiv yoe 4 - Int.fdiv yoe 100)
  let mp := Int.fdiv (5 * doy + 2) 153
  let d := doy - Int.fdiv (153 * mp + 2) 5 + 1
  let m := mp + (if mp < 10 then 3 else -9)
  (y + (if m ≤ 2 then 1 else 0), m, d)

/-- Python datetime.year of a datetime (read off its wall clock). -/
def yearOf (d : PyDateTime) : Int :=
  (civilFromDays d.date).1

/-- Python datetime.month of a datetime (read off its wall clock). -/
def monthOf (d : PyDateTime) : Int :=
  (civilFromDays d.date).2.1

/-- strftime month names, for months 1 through 12. -/
def monthName : Int → String
  | 1 => "January"
  | 2 => "February"
  | 3 => "March"
  | 4 => "April"
  | 5 => "May"
  | 6 => "June"
  | 7 => "July"
  | 8 => "August"
  | 9 => "September"
  | 10 => "October"
  | 11 => "November"
  | 12 => "December"
  | _ => ""

/-- One output record of entry_time_by_month. -/
structure MonthRecord where
  month : String
  hours : Int
deriving DecidableEq

/-- Python desired_year or timezone.now().year: the or-operator falls
back when desired_year is falsy, i.e. None or the year 0. -/
def resolveYear (desired_year : Option Int) (now_year : Int) : Int :=
  match desired_year with
  | some y => if y = 0 then now_year else y
  | none => now_year

/-- The fetch loop of entry_time_by_month: for each input project in
order, its entries whose start_time falls in the target year, in table
order. -/
def monthlyFetch (db : List TimeEntry) (projects : List Project)
    (year : Int) : List TimeEntry :=
  projects.foldl (fun acc p =>
    acc ++ db.filter (fun en =>
      decide (en.project.id = p.id) && decide (yearOf en.start_time = year))) []

/-- The inner per-month loop: accumulate end_time - start_time over the
entries starting in the month; a null end_time raises (TypeError on
subtracting None). -/
def monthSum (month : Int) : List TimeEntry → Int → Except AggError Int
  | [], seconds => .ok seconds
  | record :: rest, seconds =>
    if monthOf record.start_time = month then
      match record.end_time with
      | none => .error .noneSubtraction
      | some et =>
        monthSum month rest (seconds + (et.instant - record.start_time.instant))
    else monthSum month rest seconds

/-- The outer loop of entry_time_by_month over a list of month numbers:
the computed sum is immediately shadowed by the sample-data placeholder
(month * 5) % 50, which is then floor-divided by 3600. -/
def overMonths (time_entries : List TimeEntry) :
    List Int → Except AggError (List MonthRecord)
  | [] => .ok []
  | month :: rest =>
    match monthSum month time_entries 0 with
    | .error e => .error e
    | .ok _ =>
      let seconds := (month * 5) % 50
      (overMonths time_entries rest).map
        (fun tail => { month := monthName month,
                       hours := Int.fdiv seconds 3600 } :: tail)

/-- Python range(1, 13). -/
def monthRange : List Int :=
  (List.range 12).map (fun i => (i : Int) + 1)

/-- Embedding of EntriesOverTime.entry_time_by_month: resolve the target
year, gather each project's entries of that year, then loop over the
twelve months. -/
def entry_time_by_month (db : List TimeEntry) (projects : List Project)
    (desired_year : Option Int) (now_year : Int) :
    Except AggError (List MonthRecord) :=
  let current_year := resolveYear desired_year now_year
  overMonths (monthlyFetch db projects current_year) monthRange

/-! Remaining definitions: decidable equality on results, the user-local
start date of an entry, and concrete inputs used by witnesses and
counterexamples. -/

deriving instance DecidableEq for Except

/-- User-local start date of an entry (0 when the conversion fails);
agrees with the conversion wherever it succeeds. -/
def localDate (tzdb : Tzdb) (en : TimeEntry) : Int :=
  match convert_to_user_time tzdb en.start_time en.project.owner with
  | .ok d => d.date
  | .error _ => 0

/-- A user with no timezone configured (empty CharField). -/
def cxUser : TTUser :=
  { username := "u", timezone := "", dark_mode := false }

/-- A project owned by cxUser. -/
def cxAlpha : Project :=
  { id := 1, name := "Alpha", owner := cxUser }

/-- An empty zone database (never consulted for cxUser). -/
def cxTzdb : Tzdb := fun _ => none

/-- Entry starting at the epoch midnight and ending three days later:
its start_time lies inside the widened window of the range day 0 to
day 0, but its end_time lies outside. -/
def cxLongEntry : TimeEntry :=
  { project := cxAlpha, user := cxUser,
    start_time := { wall := 0, tzoffset := some 0 },
    end_time := some { wall := 3 * 86400, tzoffset := some 0 } }

/-- A one-hour entry on day 0, fetched for the range day 0 to day 0. -/
def cxShortEntry : TimeEntry :=
  { project := cxAlpha, user := cxUser,
    start_time := { wall := 0, tzoffset := some 0 },
    end_time := some { wall := 3600, tzoffset := some 0 } }

/-- An entry of cxAlpha whose timer is still running, started in 2024
(2024-01-01 is day 19723 since the epoch). -/
def cxOpenEntry : TimeEntry :=
  { project := cxAlpha, user := cxUser,
    start_time := { wall := 19723 * 86400, tzoffset := some 0 },
    end_time := none }

/-- A user in a fixed UTC+2 zone named P2. -/
def cxUserP2 : TTUser :=
  { username := "a", timezone := "P2", dark_mode := false }

/-- A user in a fixed UTC-5 zone named M5. -/
def cxUserM5 : TTUser :=
  { username := "b", timezone := "M5", dark_mode := false }

/-- Project of the UTC+2 user. -/
def cxProjP2 : Project :=
  { id := 1, name := "A", owner := cxUserP2 }

/-- Project of the UTC-5 user. -/
def cxProjM5 : Project :=
  { id := 2, name := "B", owner := cxUserM5 }

/-- Zone database resolving P2 to a fixed +2 h offset and M5 to a fixed
-5 h offset. -/
def cxTzdb2 : Tzdb := fun s =>
  if s = "P2" then some { offset := fun _ => 7200 }
  else if s = "M5" then some { offset := fun _ => -18000 }
  else none

/-- Entry of the UTC+2 project from 23:00 to 23:30 UTC on day 0: its
user-local date is day 1. -/
def cxEntryP2 : TimeEntry :=
  { project := cxProjP2, user := cxUserP2,
    start_time := { wall := 82800, tzoffset := some 0 },
    end_time := some { wall := 84600, tzoffset := some 0 } }

/-- Entry of the UTC-5 project from 23:30 UTC on day 0 to 00:30 UTC on
day 1: its user-local date is day 0, yet it starts later than
cxEntryP2. -/
def cxEntryM5 : TimeEntry :=
  { project := cxProjM5, user := cxUserM5,
    start_time := { wall := 84600, tzoffset := some 0 },
    end_time := some { wall := 88200, tzoffset := some 0 } }

/-- The monthly table the claim predicts for 2023: hours following
(month * 5) mod 50. -/
def claimedMonthTable2023 : List MonthRecord :=
  [ { month := "January", hours := 5 }, { month := "February", hours := 10 },
    { month := "March", hours := 15 }, { month := "April", hours := 20 },
    { month := "May", hours := 25 }, { month := "June", hours := 30 },
    { month := "July", hours := 35 }, { month := "August", hours := 40 },
    { month := "September", hours := 45 }, { month := "October", hours := 0 },
    { month := "November", hours := 5 }, { month := "December", hours := 10 } ]

/-- The monthly table the code actually produces whenever it returns:
January through December, every hours value 0. -/
def zeroMonthTable : List MonthRecord :=
  [ { month := "January", hours := 0 }, { month := "February", hours := 0 },
    { month := "March", hours := 0 }, { month := "April", hours := 0 },
    { month := "May", hours := 0 }, { month := "June", hours := 0 },
    { month := "July", hours := 0 }, { month := "August", hours := 0 },
    { month := "September", hours := 0 }, { month := "October", hours := 0 },
    { month := "November", hours := 0 }, { month := "December", hours := 0 } ]

/-! Theorems about the timer state machine. -/

theorem countActive_append (l1 l2 : List TimeEntry) :
    countActive (l1 ++ l2) = countActive l1 + countActive l2 := by
  simp [countActive, List.filter_append]

theorem countActive_fresh (p : Project) (now : Int) :
    countActive [{ project := p, user := p.owner,
                   start_time := utcNow now, end_time := none }] = 1 := rfl

theorem is_active_false_iff (es : List TimeEntry) :
    is_active es = false ↔ countActive es = 0 := by
  simp [is_active, countActive, List.length_eq_zero, List.filter_eq_nil_iff]

theorem stop_timer_ok_of_active (es : List TimeEntry) (now : Int)
    (h : is_active es = true) :
    ∃ es2, stop_timer es now = .ok es2 ∧ countActive es2 + 1 = countActive es := by
  induction es with
  | nil => simp [is_active] at h
  | cons e rest ih =>
    cases hee : e.end_time with
    | none =>
      refine ⟨{ e with end_time := some (utcNow now) } :: rest, ?_, ?_⟩
      · simp [stop_timer, hee]
      · simp [countActive, List.filter_cons, hee]
    | some et =>
      have hrest : is_active rest = true := by
        simpa [is_active, hee] using h
      obtain ⟨es2, h1, h2⟩ := ih hrest
      refine ⟨e :: es2, ?_, ?_⟩
      · simp [stop_timer, hee, h1, Except.map]
      · simp [countActive, List.filter_cons, hee] at h2 ⊢
        omega

/-- C3: for a project satisfying the at-most-one-active-entry invariant,
start_timer preserves it, and stop_timer from the RUNNING state
succeeds and preserves it. -/
theorem timer_active_invariant_preserved (p : Project) (es : List TimeEntry)
    (now now2 : Int) (h : countActive es ≤ 1) :
    countActive (start_timer p es now) ≤ 1 ∧
    (is_active es = true →
      ∃ es2, stop_timer es now2 = .ok es2 ∧ countActive es2 ≤ 1) := by
  constructor
  · cases hact : is_active es with
    | true => simpa [start_timer, hact] using h
    | false =>
      have h0 : countActive es = 0 := (is_active_false_iff es).mp hact
      simp [start_timer, hact, countActive_append, h0, countActive_fresh]
  · intro hact
    obtain ⟨es2, h1, h2⟩ := stop_timer_ok_of_active es now2 hact
    exact ⟨es2, h1, by omega⟩

/-- Closed instance of the invariant-preservation theorem at a project
with one running entry. -/
theorem timer_active_invariant_preserved_witness :
    countActive (start_timer cxAlpha [cxOpenEntry] 3) ≤ 1 ∧
    (is_active [cxOpenEntry] = true →
      ∃ es2, stop_timer [cxOpenEntry] 4 = .ok es2 ∧ countActive es2 ≤ 1) :=
  timer_active_invariant_preserved cxAlpha [cxOpenEntry] 3 4 (by decide)

theorem stop_timer_append_fresh (es : List TimeEntry) (x : TimeEntry)
    (now : Int) (h : is_active es = false) (hx : x.end_time = none) :
    stop_timer (es ++ [x]) now =
      .ok (es ++ [{ x with end_time := some (utcNow now) }]) := by
  induction es with
  | nil => simp [stop_timer, hx]
  | cons e rest ih =>
    cases hee : e.end_time with
    | none => simp [is_active, hee] at h
    | some et =>
      have hrest : is_active rest = false := by
        simpa [is_active, hee] using h
      simp [stop_timer, hee, ih hrest, Except.map]

/-- C5: from the IDLE state, start_timer then stop_timer appends exactly
one new entry, now closed, whose end instant is at least its start
instant. -/
theorem start_then_stop_one_closed_entry (p : Project) (es : List TimeEntry)
    (now1 now2 : Int) (h1 : is_active es = false) (h2 : now1 ≤ now2) :
    ∃ en : TimeEntry,
      stop_timer (start_timer p es now1) now2 = .ok (es ++ [en]) ∧
      en.start_time = utcNow now1 ∧
      en.end_time = some (utcNow now2) ∧
      ∀ et, en.end_time = some et → en.start_time.instant ≤ et.instant := by
  refine ⟨{ project := p, user := p.owner, start_time := utcNow now1,
            end_time := some (utcNow now2) }, ?_, rfl, rfl, ?_⟩
  · have hstart : start_timer p es now1 =
        es ++ [{ project := p, user := p.owner, start_time := utcNow now1,
                 end_time := none }] := by
      simp [start_timer, h1]
    rw [hstart, stop_timer_append_fresh es _ now2 h1 rfl]
  · intro et het
    cases het
    simpa [utcNow, PyDateTime.instant] using h2

/-- Closed instance: starting at instant 0 and stopping at instant 5 on a
project with no entries. -/
theorem start_then_stop_one_closed_entry_witness :
    ∃ en : TimeEntry,
      stop_timer (start_timer cxAlpha [] 0) 5 = .ok ([] ++ [en]) ∧
      en.start_time = utcNow 0 ∧
      en.end_time = some (utcNow 5) ∧
      ∀ et, en.end_time = some et → en.start_time.instant ≤ et.instant :=
  start_then_stop_one_closed_entry cxAlpha [] 0 5 (by decide) (by decide)

theorem is_active_start_timer (p : Project) (es : List TimeEntry) (now : Int) :
    is_active (start_timer p es now) = true := by
  cases hact : is_active es with
  | true => simp [start_timer, hact]
  | false =>
    simp only [start_timer, hact, Bool.false_eq_true, if_false]
    show (es ++ _).any _ = true
    rw [List.any_append]
    simp

theorem start_timer_of_active (p : Project) (es : List TimeEntry) (now : Int)
    (h : is_active es = true) : start_timer p es now = es := by
  simp [start_timer, h]

/-- C6: under the data-model invariant, a second start_timer with no
intervening stop is a no-op and exactly one entry is active. -/
theorem start_timer_idempotent_running (p : Project) (es : List TimeEntry)
    (now1 now2 : Int) (h : countActive es ≤ 1) :
    start_timer p (start_timer p es now1) now2 = start_timer p es now1 ∧
    countActive (start_timer p (start_timer p es now1) now2) = 1 := by
  have hnoop : start_timer p (start_timer p es now1) now2 = start_timer p es now1 :=
    start_timer_of_active p _ now2 (is_active_start_timer p es now1)
  refine ⟨hnoop, ?_⟩
  rw [hnoop]
  cases hact : is_active es with
  | true =>
    have hne : countActive es ≠ 0 := by
      intro h0
      rw [← is_active_false_iff es] at h0
      rw [hact] at h0
      exact Bool.noConfusion h0
    simp only [start_timer, hact, if_true]
    omega
  | false =>
    have h0 : countActive es = 0 := (is_active_false_iff es).mp hact
    simp [start_timer, hact, countActive_append, h0, countActive_fresh]

/-- Closed instance of start_timer idempotence on an empty project. -/
theorem start_timer_idempotent_running_witness :
    start_timer cxAlpha (start_timer cxAlpha [] 0) 1 = start_timer cxAlpha [] 0 ∧
    countActive (start_timer cxAlpha (start_timer cxAlpha [] 0) 1) = 1 :=
  start_timer_idempotent_running cxAlpha [] 0 1 (by decide)

/-- C9: stop_timer on an IDLE project dereferences the missing active
entry: it neither no-ops nor closes anything, it faults. -/
theorem stop_timer_idle_none_dereference (es : List TimeEntry) (now : Int)
    (h : is_active es = false) :
    stop_timer es now = .error .noneDereference := by
  induction es with
  | nil => rfl
  | cons e rest ih =>
    cases hee : e.end_time with
    | none => simp [is_active, hee] at h
    | some et =>
      have hrest : is_active rest = false := by
        simpa [is_active, hee] using h
      simp [stop_timer, hee, ih hrest, Except.map]

/-- Closed instance: stopping a project whose only entry is closed. -/
theorem stop_timer_idle_none_dereference_witness :
    stop_timer [cxShortEntry] 9 = .error .noneDereference :=
  stop_timer_idle_none_dereference [cxShortEntry] 9 (by decide)

/-! Theorems about the timezone converter. -/

theorem astimezone_instant (d : PyDateTime) (tz : Tz) :
    (astimezone d tz).instant = d.instant := by
  simp [astimezone, PyDateTime.instant]

/-- C7: for a zone-aware datetime and a user whose configured timezone
resolves, the conversion succeeds, lands in the user's zone, denotes the
same absolute instant, and converting the result onward to any zone
(in particular back to the original one) still denotes that instant. -/
theorem convert_to_user_time_preserves_instant (tzdb : Tzdb)
    (dt : PyDateTime) (user : TTUser) (tz : Tz)
    (h1 : user.timezone ≠ "") (h2 : tzdb user.timezone = some tz)
    (h3 : dt.tzoffset.isSome = true) :
    ∃ r, convert_to_user_time tzdb dt user = .ok r ∧
      r.instant = dt.instant ∧
      r.tzoffset = some (tz.offset dt.instant) ∧
      ∀ tz2 : Tz, (astimezone r tz2).instant = dt.instant := by
  obtain ⟨o, ho⟩ := Option.isSome_iff_exists.mp h3
  refine ⟨astimezone dt tz, ?_, astimezone_instant dt tz, rfl, ?_⟩
  · simp [convert_to_user_time, h1, h2, ho]
  · intro tz2
    rw [astimezone_instant, astimezone_instant]

/-- Closed instance: converting the aware instant 100 for a user in a
fixed +1 h zone named X. -/
theorem convert_to_user_time_preserves_instant_witness :
    ∃ r, convert_to_user_time
        (fun s => if s = "X" then some { offset := fun _ => 3600 } else none)
        { wall := 100, tzoffset := some 0 }
        { username := "w", timezone := "X", dark_mode := false } = .ok r ∧
      r.instant = PyDateTime.instant { wall := 100, tzoffset := some 0 } ∧
      r.tzoffset = some (Tz.offset { offset := fun _ => 3600 }
        (PyDateTime.instant { wall := 100, tzoffset := some 0 })) ∧
      ∀ tz2 : Tz, (astimezone r tz2).instant =
        PyDateTime.instant { wall := 100, tzoffset := some 0 } :=
  convert_to_user_time_preserves_instant
    (fun s => if s = "X" then some { offset := fun _ => 3600 } else none)
    { wall := 100, tzoffset := some 0 }
    { username := "w", timezone := "X", dark_mode := false }
    { offset := fun _ => 3600 }
    (by decide) (by simp) (by decide)

/-- C8: the conversion fails with UnknownTimeZone exactly when the
user's timezone field is a non-empty unrecognized string, and an
unconfigured (empty) timezone returns the input unchanged. -/
theorem convert_to_user_time_error_iff (tzdb : Tzdb) (dt : PyDateTime)
    (user : TTUser) :
    (convert_to_user_time tzdb dt user = .error .unknownTimeZone ↔
      user.timezone ≠ "" ∧ tzdb user.timezone = none) ∧
    (user.timezone = "" → convert_to_user_time tzdb dt user = .ok dt) := by
  by_cases hz : user.timezone = ""
  · simp [convert_to_user_time, hz]
  · cases htz : tzdb user.timezone with
    | none => simp [convert_to_user_time, hz, htz]
    | some tz => simp [convert_to_user_time, hz, htz]

/-! Theorems about entry_time_by_day's fetch window (C1). -/

/-- C1 counterexample: an entry that starts inside the claimed
start_time window but ends after end_day + 2 days is not fetched by the
code, so the code reports 0 hours for the day while the claimed
aggregation reports 72. -/
theorem entry_time_by_day_claimed_window_cex :
    entry_time_by_day cxTzdb [cxLongEntry] [cxAlpha] 0 0 =
      .ok [{ day := 0, hours_tenths := 0, by_project := [] }] ∧
    entry_time_by_day_claim cxTzdb [cxLongEntry] [cxAlpha] 0 0 =
      .ok [{ day := 0, hours_tenths := 720, by_project := [("Alpha", 720)] }] ∧
    entry_time_by_day cxTzdb [cxLongEntry] [cxAlpha] 0 0 ≠
      entry_time_by_day_claim cxTzdb [cxLongEntry] [cxAlpha] 0 0 :=
  ⟨by decide, by decide, by decide⟩

/-- C1 as amended: the aggregation runs over exactly the entries of an
input project with start_time at or after start_day - 2 days and
non-null end_time at or before end_day + 2 days, in ascending
start_time order. -/
theorem entry_time_by_day_fetch_window (tzdb : Tzdb) (db : List TimeEntry)
    (projects : List Project) (start_day end_day : Int) :
    entry_time_by_day tzdb db projects start_day end_day =
      aggregateDays tzdb (fetchEntriesByDay db projects start_day end_day)
        (daysDesired start_day end_day) ∧
    List.Sorted startLe (fetchEntriesByDay db projects start_day end_day) ∧
    ∀ en, en ∈ fetchEntriesByDay db projects start_day end_day ↔
      (en ∈ db ∧ (∃ p ∈ projects, p.id = en.project.id) ∧
        dayStart (start_day - 2) ≤ en.start_time.instant ∧
        ∃ et, en.end_time = some et ∧ et.instant ≤ dayStart (end_day + 2)) := by
  refine ⟨rfl, List.sorted_insertionSort startLe _, fun en => ?_⟩
  show en ∈ List.insertionSort startLe _ ↔ _
  rw [(List.perm_insertionSort startLe _).mem_iff, List.mem_filter]
  cases het : en.end_time with
  | none => simp [keepEntry, memberProjects, endLeBound, het]
  | some et => simp [keepEntry, memberProjects, endLeBound, het, and_assoc]

/-! Theorems about entry_time_by_month (C2, C10). -/

/-- C2 counterexample: with no projects and desired_year 2023 the code
does not return the claimed table following (month * 5) mod 50. -/
theorem entry_time_by_month_placeholder_cex :
    entry_time_by_month [] [] (some 2023) 2025 ≠ .ok claimedMonthTable2023 := by
  decide

/-- C2 as amended: the call returns 12 records, January through December
in order, each with hours ((month * 5) mod 50) // 3600 = 0. -/
theorem entry_time_by_month_empty_2023 :
    entry_time_by_month [] [] (some 2023) 2025 = .ok zeroMonthTable := by
  decide

theorem monthSum_ok (m : Int) (tes : List TimeEntry)
    (h : ∀ en ∈ tes, en.end_time ≠ none) :
    ∀ acc : Int, ∃ s, monthSum m tes acc = .ok s := by
  induction tes with
  | nil => intro acc; exact ⟨acc, rfl⟩
  | cons r rest ih =>
    intro acc
    by_cases hm : monthOf r.start_time = m
    · cases hr : r.end_time with
      | none => exact absurd hr (h r (by simp))
      | some et =>
        obtain ⟨s, hs⟩ := ih (fun en hen => h en (by simp [hen]))
          (acc + (et.instant - r.start_time.instant))
        exact ⟨s, by simp [monthSum, hm, hr, hs]⟩
    · obtain ⟨s, hs⟩ := ih (fun en hen => h en (by simp [hen])) acc
      exact ⟨s, by simp [monthSum, hm, hs]⟩

theorem overMonths_ok (tes : List TimeEntry)
    (h : ∀ en ∈ tes, en.end_time ≠ none) :
    ∀ months : List Int, overMonths tes months =
      .ok (months.map (fun m =>
        { month := monthName m, hours := Int.fdiv ((m * 5) % 50) 3600 })) := by
  intro months
  induction months with
  | nil => rfl
  | cons m rest ih =>
    obtain ⟨s, hs⟩ := monthSum_ok m tes h 0
    simp [overMonths, hs, ih, Except.map]

/-- C10 counterexample: a project holding a still-running entry started
in the target year makes entry_time_by_month raise (subtracting a null
end_time) instead of returning any records. -/
theorem entry_time_by_month_open_entry_cex :
    entry_time_by_month [cxOpenEntry] [cxAlpha] (some 2024) 2024 =
      .error .noneSubtraction := by
  decide

/-- C10 as amended: whenever every fetched entry of the target year is
closed, entry_time_by_month returns the twelve month records with every
hours value 0 — neither real durations nor the raw placeholder values
ever reach the output. -/
theorem entry_time_by_month_hours_zero (db : List TimeEntry)
    (projects : List Project) (desired_year : Option Int) (now_year : Int)
    (h : ∀ en ∈ monthlyFetch db projects (resolveYear desired_year now_year),
      en.end_time ≠ none) :
    entry_time_by_month db projects desired_year now_year = .ok zeroMonthTable := by
  show overMonths
    (monthlyFetch db projects (resolveYear desired_year now_year)) monthRange = _
  rw [overMonths_ok _ h monthRange]
  rfl

/-- Closed instance: no projects, desired_year 2024. -/
theorem entry_time_by_month_hours_zero_witness :
    entry_time_by_month [] [] (some 2024) 2024 = .ok zeroMonthTable :=
  entry_time_by_month_hours_zero [] [] (some 2024) 2024 (by decide)

/-! Theorems about the early break in entry_time_by_day (C4). -/

theorem scanDayFull_all_gt (tzdb : Tzdb) (day : Int) (l : List TimeEntry)
    (h : ∀ en ∈ l,
      (∃ d, convert_to_user_time tzdb en.start_time en.project.owner = .ok d) ∧
      day < localDate tzdb en) :
    ∀ seconds byProject,
      scanDayFull tzdb day l seconds byProject = .ok (seconds, byProject) := by
  induction l with
  | nil => intro s b; rfl
  | cons r rest ih =>
    intro s b
    obtain ⟨⟨d, hconv⟩, hgt⟩ := h r (by simp)
    have hld : localDate tzdb r = d.date := by simp [localDate, hconv]
    rw [hld] at hgt
    have hne : ¬ d.date = day := by omega
    simp only [scanDayFull, hconv]
    rw [if_neg hne]
    exact ih (fun en hen => h en (by simp [hen])) s b

theorem scanDay_eq_full (tzdb : Tzdb) (day : Int) (l : List TimeEntry)
    (h1 : ∀ en ∈ l,
      ∃ d, convert_to_user_time tzdb en.start_time en.project.owner = .ok d)
    (h2 : List.Pairwise (fun a b => localDate tzdb a ≤ localDate tzdb b) l) :
    ∀ seconds byProject,
      scanDay tzdb day l seconds byProject =
        scanDayFull tzdb day l seconds byProject := by
  induction l with
  | nil => intro s b; rfl
  | cons r rest ih =>
    intro s b
    obtain ⟨d, hconv⟩ := h1 r (by simp)
    have hld : localDate tzdb r = d.date := by simp [localDate, hconv]
    have h1r : ∀ en ∈ rest,
        ∃ d2, convert_to_user_time tzdb en.start_time en.project.owner = .ok d2 :=
      fun en hen => h1 en (by simp [hen])
    have h2r := h2.of_cons
    by_cases hd : d.date = day
    · cases hr : r.end_time with
      | none => simp [scanDay, scanDayFull, hconv, hd, hr]
      | some et =>
        simp only [scanDay, scanDayFull, hconv, hd, if_pos, hr]
        exact ih h1r h2r _ _
    · by_cases hlt : day < d.date
      · have hall : ∀ en ∈ rest,
            (∃ d2, convert_to_user_time tzdb en.start_time en.project.owner = .ok d2) ∧
            day < localDate tzdb en := by
          intro en hen
          refine ⟨h1r en hen, ?_⟩
          have hle := (List.pairwise_cons.mp h2).1 en hen
          rw [hld] at hle
          omega
        have hfull := scanDayFull_all_gt tzdb day rest hall s b
        simp only [scanDay, scanDayFull, hconv]
        rw [if_neg hd, if_neg hd, if_pos hlt, hfull]
      · simp only [scanDay, scanDayFull, hconv]
        rw [if_neg hd, if_neg hd, if_neg hlt]
        exact ih h1r h2r s b

theorem aggregateDays_eq_full (tzdb : Tzdb) (entries : List TimeEntry)
    (h1 : ∀ en ∈ entries,
      ∃ d, convert_to_user_time tzdb en.start_time en.project.owner = .ok d)
    (h2 : List.Pairwise (fun a b => localDate tzdb a ≤ localDate tzdb b) entries) :
    ∀ days, aggregateDays tzdb entries days = aggregateDaysFull tzdb entries days := by
  intro days
  induction days with
  | nil => rfl
  | cons day rest ih =>
    have hs := scanDay_eq_full tzdb day entries h1 h2 0 []
    simp only [aggregateDays, aggregateDaysFull, hs, ih]

/-- C4 counterexample: two entries sorted by start_time whose owners sit
in different zones; the first entry's user-local date is already past
day 0, so the break skips the second entry even though its user-local
date is day 0.  The break version reports 0 hours, the full scan 1.0. -/
theorem entry_time_by_day_break_cex :
    entry_time_by_day cxTzdb2 [cxEntryP2, cxEntryM5] [cxProjP2, cxProjM5] 0 0 =
      .ok [{ day := 0, hours_tenths := 0, by_project := [] }] ∧
    entry_time_by_day_full cxTzdb2 [cxEntryP2, cxEntryM5] [cxProjP2, cxProjM5] 0 0 =
      .ok [{ day := 0, hours_tenths := 10, by_project := [("B", 10)] }] ∧
    entry_time_by_day cxTzdb2 [cxEntryP2, cxEntryM5] [cxProjP2, cxProjM5] 0 0 ≠
      entry_time_by_day_full cxTzdb2 [cxEntryP2, cxEntryM5] [cxProjP2, cxProjM5] 0 0 :=
  ⟨by decide, by decide, by decide⟩

/-- C4 as amended: the early break is an optimization only when every
fetched entry's owner timezone resolves and the fetched entries'
user-local start dates are nondecreasing (in particular whenever all
owners share one timezone); the break version then equals the full
rescans-every-entry reimplementation. -/
theorem entry_time_by_day_break_eq_full (tzdb : Tzdb) (db : List TimeEntry)
    (projects : List Project) (start_day end_day : Int)
    (h1 : ∀ en ∈ fetchEntriesByDay db projects start_day end_day,
      ∃ d, convert_to_user_time tzdb en.start_time en.project.owner = .ok d)
    (h2 : List.Pairwise (fun a b => localDate tzdb a ≤ localDate tzdb b)
      (fetchEntriesByDay db projects start_day end_day)) :
    entry_time_by_day tzdb db projects start_day end_day =
      entry_time_by_day_full tzdb db projects start_day end_day :=
  aggregateDays_eq_full tzdb _ h1 h2 (daysDesired start_day end_day)

/-- Closed instance: a single-owner database where the break changes
nothing. -/
theorem entry_time_by_day_break_eq_full_witness :
    entry_time_by_day cxTzdb [cxShortEntry] [cxAlpha] 0 0 =
      entry_time_by_day_full cxTzdb [cxShortEntry] [cxAlpha] 0 0 :=
  entry_time_by_day_break_eq_full cxTzdb [cxShortEntry] [cxAlpha] 0 0
    (by
      intro en hen
      rw [show fetchEntriesByDay [cxShortEntry] [cxAlpha] 0 0 = [cxShortEntry] from by decide] at hen
      simp at hen
      subst hen
      exact ⟨cxShortEntry.start_time, rfl⟩)
    (by
      rw [show fetchEntriesByDay [cxShortEntry] [cxAlpha] 0 0 = [cxShortEntry] from by decide]
      simp)

end TimeTrack
